import Mathlib

/-!
Verification development for the SwiftRemit remittance contract.

The repository source under version control contains the error taxonomy
(`src/errors.rs`, the `ContractError` enum with 24 variants and explicit
`u32` discriminants).  The surrounding contract logic (remittance ledger,
admin registry, agent registry, token whitelist, rate limiter, migration
controller, pause gate) is specified in the design document; definitions
for those parts are modelled from the spec and marked as such in their
doc comments.
-/

namespace SwiftRemit

/-- The `ContractError` enum from `src/errors.rs`: the 24 error kinds the
contract can return, in source order. -/
inductive ContractError where
  | NotInitialized
  | AlreadyInitialized
  | RemittanceNotFound
  | InvalidStatus
  | InvalidAddress
  | InvalidAmount
  | Overflow
  | SettlementExpired
  | AgentNotRegistered
  | AgentAlreadyRegistered
  | NotAdmin
  | DuplicateSettlement
  | ContractPaused
  | RateLimitExceeded
  | Unauthorized
  | AdminAlreadyExists
  | AdminNotFound
  | CannotRemoveLastAdmin
  | TokenNotWhitelisted
  | TokenAlreadyWhitelisted
  | InvalidMigrationHash
  | MigrationInProgress
  | InvalidMigrationBatch
  | DailySendLimitExceeded
  deriving DecidableEq, Repr, Fintype

/-- The `u32` discriminant of each `ContractError` variant, exactly as
written in `src/errors.rs` (`#[repr(u32)]`, `NotInitialized = 1` through
`DailySendLimitExceeded = 24`). -/
def ContractError.code : ContractError → Nat
  | .NotInitialized => 1
  | .AlreadyInitialized => 2
  | .RemittanceNotFound => 3
  | .InvalidStatus => 4
  | .InvalidAddress => 5
  | .InvalidAmount => 6
  | .Overflow => 7
  | .SettlementExpired => 8
  | .AgentNotRegistered => 9
  | .AgentAlreadyRegistered => 10
  | .NotAdmin => 11
  | .DuplicateSettlement => 12
  | .ContractPaused => 13
  | .RateLimitExceeded => 14
  | .Unauthorized => 15
  | .AdminAlreadyExists => 16
  | .AdminNotFound => 17
  | .CannotRemoveLastAdmin => 18
  | .TokenNotWhitelisted => 19
  | .TokenAlreadyWhitelisted => 20
  | .InvalidMigrationHash => 21
  | .MigrationInProgress => 22
  | .InvalidMigrationBatch => 23
  | .DailySendLimitExceeded => 24

/-- All 24 variants of `ContractError`, in source order. -/
def allErrors : List ContractError :=
  [.NotInitialized, .AlreadyInitialized, .RemittanceNotFound, .InvalidStatus,
   .InvalidAddress, .InvalidAmount, .Overflow, .SettlementExpired,
   .AgentNotRegistered, .AgentAlreadyRegistered, .NotAdmin, .DuplicateSettlement,
   .ContractPaused, .RateLimitExceeded, .Unauthorized, .AdminAlreadyExists,
   .AdminNotFound, .CannotRemoveLastAdmin, .TokenNotWhitelisted,
   .TokenAlreadyWhitelisted, .InvalidMigrationHash, .MigrationInProgress,
   .InvalidMigrationBatch, .DailySendLimitExceeded]

/-- The error kinds named by the taxonomy groups of the specification
(design document section 7), group by group: (a) lifecycle/config,
(b) not-found, (c) validation, (d) authorization, (e) state conflict
(where the already-registered variants are the agent and token ones),
(f) policy limits. -/
def specTaxonomy : List ContractError :=
  [.NotInitialized, .AlreadyInitialized] ++
  [.RemittanceNotFound, .AgentNotRegistered, .AdminNotFound] ++
  [.InvalidAddress, .InvalidAmount, .InvalidStatus, .Overflow, .TokenNotWhitelisted] ++
  [.NotAdmin, .Unauthorized] ++
  [.AgentAlreadyRegistered, .TokenAlreadyWhitelisted, .AdminAlreadyExists,
   .DuplicateSettlement, .MigrationInProgress, .InvalidMigrationBatch,
   .InvalidMigrationHash] ++
  [.SettlementExpired, .ContractPaused, .RateLimitExceeded,
   .DailySendLimitExceeded, .CannotRemoveLastAdmin]

/-- Modelled from the spec: the remittance lifecycle states of section 4.1
(the Rust state-machine module is not in the available source). -/
inductive Status where
  | Created
  | Pending
  | Settled
  | Expired
  | Cancelled
  deriving DecidableEq, Repr, Fintype

/-- Modelled from the spec: Settled, Expired and Cancelled are terminal
states with no outgoing transitions. -/
def Status.isTerminal : Status → Bool
  | .Settled => true
  | .Expired => true
  | .Cancelled => true
  | _ => false

/-- Modelled from the spec: the allowed status transitions of section 4.1.
The happy path is the chain Created, Pending, Settled; since `settle` is
specified to accept a remittance whose status is Created or Pending and
move it to Settled, the chain includes the direct Created-to-Settled move.
Expiry and cancellation leave from Created or Pending. -/
def stepEdge : Status → Status → Bool
  | .Created, .Pending => true
  | .Created, .Settled => true
  | .Pending, .Settled => true
  | .Created, .Expired => true
  | .Pending, .Expired => true
  | .Created, .Cancelled => true
  | .Pending, .Cancelled => true
  | _, _ => false

/-- Modelled from the spec: a remittance record (section 3).  Addresses,
asset identifiers and settlement references are modelled as naturals. -/
structure Remittance where
  sender : Nat
  recipient : Nat
  agent : Nat
  asset : Nat
  amount : Nat
  createdAt : Nat
  expiry : Nat
  status : Status
  settlementRef : Option Nat
  deriving DecidableEq, Repr

/-- Modelled from the spec: per-sender rate-limit counters (section 3):
the window index, the submission count in the window, and the cumulative
amount sent in the window's day. -/
structure RateLimitState where
  windowStart : Nat
  count : Nat
  dailyAmount : Nat
  deriving DecidableEq, Repr

/-- Modelled from the spec: configured limits (maximum single amount,
window length, per-window submission cap, per-day amount cap). -/
structure Config where
  maxAmount : Nat
  windowLen : Nat
  perWindowCap : Nat
  dailyCap : Nat
  deriving DecidableEq, Repr

/-- Modelled from the spec: the bound of the unsigned integer width used
for checked amount arithmetic (the exact width is not fixed by the
available source; a 64-bit width is chosen). -/
def U64 : Nat := 2 ^ 64

/-- Modelled from the spec: the whole persisted contract state (section 6):
the initialization flag, the admin / agent / token sets, the pause flag,
the remittance store with its fresh-ID cursor, the per-sender rate-limit
store, the set of settlement references already used, and the migration
cursor with its in-flight flag. -/
structure ContractState where
  initialized : Bool
  admins : List Nat
  agents : List Nat
  tokens : List Nat
  paused : Bool
  nextId : Nat
  remits : Nat → Option Remittance
  rates : Nat → RateLimitState
  usedRefs : List Nat
  appliedSeq : Nat
  migrationInFlight : Bool

/-- Modelled from the spec: the state before `initialize`: nothing
registered, no remittances, cursors at zero. -/
def initState : ContractState where
  initialized := false
  admins := []
  agents := []
  tokens := []
  paused := false
  nextId := 0
  remits := fun _ => none
  rates := fun _ => ⟨0, 0, 0⟩
  usedRefs := []
  appliedSeq := 0
  migrationInFlight := false

/-- Modelled from the spec: AddressValidator checks identifiers against
format rules before any state mutation; the exact format rules are not in
the available source, so a nonzero identifier is taken as well-formed. -/
def validAddr (a : Nat) : Bool := a != 0

/-- Modelled from the spec: the index of the rate-limit window containing
a timestamp. -/
def curWindow (cfg : Config) (now : Nat) : Nat := now / cfg.windowLen

/-- Modelled from the spec: on each admission check, if the current
timestamp has moved into a new window, the counter and daily amount reset
to zero before the incoming request is evaluated. -/
def rollRate (cfg : Config) (now : Nat) (st : RateLimitState) : RateLimitState :=
  if st.windowStart = curWindow cfg now then st else ⟨curWindow cfg now, 0, 0⟩

/-- Modelled from the spec: `initialize(admin)` (section 6) fails
`AlreadyInitialized` on a second call, validates the admin address, and
otherwise records the single initial admin. -/
def initializeContract (s : ContractState) (admin : Nat) :
    Except ContractError ContractState :=
  if s.initialized then .error .AlreadyInitialized
  else if validAddr admin = false then .error .InvalidAddress
  else .ok { s with initialized := true, admins := [admin] }

/-- Modelled from the spec: `create` (section 4.1) with its checks in the
listed order — address validation, amount bounds, token whitelist, agent
registry, pause gate, then rate-limit admission with checked daily-amount
accumulation — and, on success, the new Created record persisted at a
fresh ID atomically with the counter update. -/
def create (cfg : Config) (s : ContractState)
    (now sender recipient agent asset amount expiry : Nat) :
    Except ContractError ContractState :=
  if s.initialized = false then .error .NotInitialized
  else if ¬ (validAddr sender = true ∧ validAddr recipient = true ∧ validAddr agent = true) then
    .error .InvalidAddress
  else if amount = 0 ∨ cfg.maxAmount < amount then .error .InvalidAmount
  else if asset ∉ s.tokens then .error .TokenNotWhitelisted
  else if agent ∉ s.agents then .error .AgentNotRegistered
  else if s.paused = true then .error .ContractPaused
  else if cfg.perWindowCap < (rollRate cfg now (s.rates sender)).count + 1 then
    .error .RateLimitExceeded
  else if U64 ≤ (rollRate cfg now (s.rates sender)).dailyAmount + amount then
    .error .Overflow
  else if cfg.dailyCap < (rollRate cfg now (s.rates sender)).dailyAmount + amount then
    .error .DailySendLimitExceeded
  else
    .ok { s with
      nextId := s.nextId + 1,
      remits := fun n =>
        if n = s.nextId then
          some ⟨sender, recipient, agent, asset, amount, now, expiry, .Created, none⟩
        else s.remits n,
      rates := fun a =>
        if a = sender then
          ⟨curWindow cfg now, (rollRate cfg now (s.rates sender)).count + 1,
           (rollRate cfg now (s.rates sender)).dailyAmount + amount⟩
        else s.rates a }

/-- Modelled from the spec: `settle(id, settlement_reference)` (section
4.1), callable only by the agent on the record; checks existence, caller,
status, expiry, then global settlement-reference uniqueness; on success
the record becomes Settled with the reference recorded immutably. -/
def settle (s : ContractState) (now caller id ref : Nat) :
    Except ContractError ContractState :=
  if s.initialized = false then .error .NotInitialized
  else
    match s.remits id with
    | none => .error .RemittanceNotFound
    | some r =>
      if caller ≠ r.agent then .error .Unauthorized
      else if ¬ (r.status = .Created ∨ r.status = .Pending) then .error .InvalidStatus
      else if r.expiry ≤ now then .error .SettlementExpired
      else if r.settlementRef.isSome = true ∨ ref ∈ s.usedRefs then .error .DuplicateSettlement
      else
        .ok { s with
          remits := fun n =>
            if n = id then some { r with status := .Settled, settlementRef := some ref }
            else s.remits n,
          usedRefs := ref :: s.usedRefs }

/-- Modelled from the spec: `expire(id)` (section 4.1), valid only when
the current time has reached the expiry and the status is Created or
Pending.  The spec leaves open whether expiry of an already-terminal
record is a no-op or an error; the error policy is chosen, and
`InvalidStatus` is also used for a premature expiry attempt since the
spec names no dedicated error for it. -/
def expire (s : ContractState) (now id : Nat) :
    Except ContractError ContractState :=
  if s.initialized = false then .error .NotInitialized
  else
    match s.remits id with
    | none => .error .RemittanceNotFound
    | some r =>
      if ¬ (r.status = .Created ∨ r.status = .Pending) then .error .InvalidStatus
      else if now < r.expiry then .error .InvalidStatus
      else .ok { s with
        remits := fun n => if n = id then some { r with status := .Expired } else s.remits n }

/-- Modelled from the spec: `cancel(id)` (section 4.1), callable by an
admin or the original sender while the status is Created or Pending. -/
def cancel (s : ContractState) (caller id : Nat) :
    Except ContractError ContractState :=
  if s.initialized = false then .error .NotInitialized
  else
    match s.remits id with
    | none => .error .RemittanceNotFound
    | some r =>
      if ¬ (caller ∈ s.admins ∨ caller = r.sender) then .error .Unauthorized
      else if ¬ (r.status = .Created ∨ r.status = .Pending) then .error .InvalidStatus
      else .ok { s with
        remits := fun n => if n = id then some { r with status := .Cancelled } else s.remits n }

/-- Modelled from the spec: `add_admin(caller, new_admin)` (section 4.2). -/
def addAdmin (s : ContractState) (caller a : Nat) :
    Except ContractError ContractState :=
  if s.initialized = false then .error .NotInitialized
  else if caller ∉ s.admins then .error .NotAdmin
  else if validAddr a = false then .error .InvalidAddress
  else if a ∈ s.admins then .error .AdminAlreadyExists
  else .ok { s with admins := a :: s.admins }

/-- Modelled from the spec: `remove_admin(caller, target)` (section 4.2),
rejecting a removal that would empty the admin set. -/
def removeAdmin (s : ContractState) (caller t : Nat) :
    Except ContractError ContractState :=
  if s.initialized = false then .error .NotInitialized
  else if caller ∉ s.admins then .error .NotAdmin
  else if t ∉ s.admins then .error .AdminNotFound
  else if s.admins.length = 1 then .error .CannotRemoveLastAdmin
  else .ok { s with admins := s.admins.erase t }

/-- Modelled from the spec: agent registration (section 4.4), admin-gated. -/
def registerAgent (s : ContractState) (caller g : Nat) :
    Except ContractError ContractState :=
  if s.initialized = false then .error .NotInitialized
  else if caller ∉ s.admins then .error .NotAdmin
  else if validAddr g = false then .error .InvalidAddress
  else if g ∈ s.agents then .error .AgentAlreadyRegistered
  else .ok { s with agents := g :: s.agents }

/-- Modelled from the spec: agent removal (section 4.4), admin-gated. -/
def removeAgent (s : ContractState) (caller g : Nat) :
    Except ContractError ContractState :=
  if s.initialized = false then .error .NotInitialized
  else if caller ∉ s.admins then .error .NotAdmin
  else if g ∉ s.agents then .error .AgentNotRegistered
  else .ok { s with agents := s.agents.erase g }

/-- Modelled from the spec: token whitelisting (section 4.4), admin-gated. -/
def whitelistToken (s : ContractState) (caller t : Nat) :
    Except ContractError ContractState :=
  if s.initialized = false then .error .NotInitialized
  else if caller ∉ s.admins then .error .NotAdmin
  else if t ∈ s.tokens then .error .TokenAlreadyWhitelisted
  else .ok { s with tokens := t :: s.tokens }

/-- Modelled from the spec: token delisting (section 4.4), admin-gated. -/
def delistToken (s : ContractState) (caller t : Nat) :
    Except ContractError ContractState :=
  if s.initialized = false then .error .NotInitialized
  else if caller ∉ s.admins then .error .NotAdmin
  else if t ∉ s.tokens then .error .TokenNotWhitelisted
  else .ok { s with tokens := s.tokens.erase t }

/-- Modelled from the spec: `pause(caller)` (section 4.6), admin-gated. -/
def pauseGate (s : ContractState) (caller : Nat) :
    Except ContractError ContractState :=
  if s.initialized = false then .error .NotInitialized
  else if caller ∉ s.admins then .error .NotAdmin
  else .ok { s with paused := true }

/-- Modelled from the spec: `unpause(caller)` (section 4.6), admin-gated. -/
def unpauseGate (s : ContractState) (caller : Nat) :
    Except ContractError ContractState :=
  if s.initialized = false then .error .NotInitialized
  else if caller ∉ s.admins then .error .NotAdmin
  else .ok { s with paused := false }

/-- Modelled from the spec: the hash-verification service is external and
opaque; any fixed computable function stands in for it. -/
def hashPayload (payload : List Nat) : Nat :=
  payload.foldl (fun h b => (h * 31 + b) % U64) 5381

/-- Modelled from the spec: `submit_batch(caller, sequence_no, payload,
declared_hash)` (section 4.5): admin-only, single batch in flight, strict
gapless sequence ordering, hash recomputed over the payload; on success
the cursor advances atomically. -/
def submitBatch (s : ContractState) (caller seqNo : Nat)
    (payload : List Nat) (declaredHash : Nat) :
    Except ContractError ContractState :=
  if s.initialized = false then .error .NotInitialized
  else if caller ∉ s.admins then .error .NotAdmin
  else if s.migrationInFlight = true then .error .MigrationInProgress
  else if seqNo ≠ s.appliedSeq + 1 then .error .InvalidMigrationBatch
  else if hashPayload payload ≠ declaredHash then .error .InvalidMigrationHash
  else .ok { s with appliedSeq := seqNo }

/-- Modelled from the spec: the entry-point surface of section 6, one
constructor per entry operation. -/
inductive Op where
  | initializeContract (admin : Nat)
  | create (now sender recipient agent asset amount expiry : Nat)
  | settle (now caller id ref : Nat)
  | expire (now id : Nat)
  | cancel (caller id : Nat)
  | addAdmin (caller a : Nat)
  | removeAdmin (caller t : Nat)
  | registerAgent (caller g : Nat)
  | removeAgent (caller g : Nat)
  | whitelistToken (caller t : Nat)
  | delistToken (caller t : Nat)
  | pauseGate (caller : Nat)
  | unpauseGate (caller : Nat)
  | submitBatch (caller seqNo : Nat) (payload : List Nat) (declaredHash : Nat)

/-- Whether an entry operation is the `initialize` entry point. -/
def Op.isInit : Op → Bool
  | .initializeContract _ => true
  | _ => false

/-- Dispatch of one entry invocation to its operation. -/
def step (cfg : Config) (s : ContractState) : Op → Except ContractError ContractState
  | .initializeContract admin => SwiftRemit.initializeContract s admin
  | .create now sender recipient agent asset amount expiry =>
      SwiftRemit.create cfg s now sender recipient agent asset amount expiry
  | .settle now caller id ref => SwiftRemit.settle s now caller id ref
  | .expire now id => SwiftRemit.expire s now id
  | .cancel caller id => SwiftRemit.cancel s caller id
  | .addAdmin caller a => SwiftRemit.addAdmin s caller a
  | .removeAdmin caller t => SwiftRemit.removeAdmin s caller t
  | .registerAgent caller g => SwiftRemit.registerAgent s caller g
  | .removeAgent caller g => SwiftRemit.removeAgent s caller g
  | .whitelistToken caller t => SwiftRemit.whitelistToken s caller t
  | .delistToken caller t => SwiftRemit.delistToken s caller t
  | .pauseGate caller => SwiftRemit.pauseGate s caller
  | .unpauseGate caller => SwiftRemit.unpauseGate s caller
  | .submitBatch caller seqNo payload declaredHash =>
      SwiftRemit.submitBatch s caller seqNo payload declaredHash

/-- The observable state after an entry invocation: the new state on
success, the unchanged input state on failure. -/
def exec (cfg : Config) (s : ContractState) (op : Op) : ContractState :=
  match step cfg s op with
  | .ok t => t
  | .error _ => s

/-- States reachable from `s` by successful entry invocations. -/
inductive ReachFrom (cfg : Config) (s : ContractState) : ContractState → Prop where
  | refl : ReachFrom cfg s s
  | tail {t t2 : ContractState} {op : Op} :
      ReachFrom cfg s t → step cfg t op = .ok t2 → ReachFrom cfg s t2

/-- States reachable from the uninitialized initial state. -/
def Reachable (cfg : Config) (s : ContractState) : Prop :=
  ReachFrom cfg initState s

/-- The remittance store holds nothing at or above the fresh-ID cursor. -/
def Fresh (s : ContractState) : Prop :=
  ∀ id, s.nextId ≤ id → s.remits id = none

/-- A record has a settlement reference exactly when it is Settled. -/
def RefStatus (s : ContractState) : Prop :=
  ∀ id r, s.remits id = some r →
    (r.settlementRef.isSome = true ↔ r.status = Status.Settled)

/-- Every settlement reference recorded on a remittance is in the used set. -/
def RefsRecorded (s : ContractState) : Prop :=
  ∀ id r v, s.remits id = some r → r.settlementRef = some v → v ∈ s.usedRefs

/-- No two distinct remittances carry the same settlement reference. -/
def RefsUnique (s : ContractState) : Prop :=
  ∀ id1 id2 r1 r2 v, s.remits id1 = some r1 → s.remits id2 = some r2 →
    r1.settlementRef = some v → r2.settlementRef = some v → id1 = id2

/-- Once initialized, the admin set is non-empty. -/
def AdminsOk (s : ContractState) : Prop :=
  s.initialized = true → s.admins ≠ []

/-- The state invariant maintained by every entry operation. -/
def Inv (s : ContractState) : Prop :=
  Fresh s ∧ RefStatus s ∧ RefsRecorded s ∧ RefsUnique s ∧ AdminsOk s

/-- A concrete configuration for the witness scenarios: maximum amount
1000, window length 10, per-window cap 10, daily cap 500. -/
def cfgW : Config := ⟨1000, 10, 10, 500⟩

/-- Witness state: the initial state after `initialize` with admin 1. -/
def sWa : ContractState := exec cfgW initState (Op.initializeContract 1)

/-- Witness state: token 7 whitelisted. -/
def sWb : ContractState := exec cfgW sWa (Op.whitelistToken 1 7)

/-- Witness state: agent 5 registered. -/
def sWc : ContractState := exec cfgW sWb (Op.registerAgent 1 5)

/-- Witness state: remittance 0 created (sender 2, recipient 3, agent 5,
asset 7, amount 100, expiry 50, at time 0). -/
def sW0 : ContractState := exec cfgW sWc (Op.create 0 2 3 5 7 100 50)

/-- Witness state: remittance 0 settled by agent 5 with reference 42. -/
def sW1 : ContractState := exec cfgW sW0 (Op.settle 1 5 0 42)

/-- The remittance record held at ID 0 in `sW0`. -/
def rW0 : Remittance := ⟨2, 3, 5, 7, 100, 0, 50, .Created, none⟩

/-- The remittance record held at ID 0 in `sW1`. -/
def rW1 : Remittance := ⟨2, 3, 5, 7, 100, 0, 50, .Settled, some 42⟩

/-- A state whose sender counters already sit at the per-window cap. -/
def sRL : ContractState where
  initialized := true
  admins := [1]
  agents := [5]
  tokens := [7]
  paused := false
  nextId := 0
  remits := fun _ => none
  rates := fun _ => ⟨0, 10, 100⟩
  usedRefs := []
  appliedSeq := 0
  migrationInFlight := false

/-- A state whose sender daily total sits one below the integer bound. -/
def sOV : ContractState where
  initialized := true
  admins := [1]
  agents := [5]
  tokens := [7]
  paused := false
  nextId := 0
  remits := fun _ => none
  rates := fun _ => ⟨0, 0, U64 - 1⟩
  usedRefs := []
  appliedSeq := 0
  migrationInFlight := false

/-- Shape of the post-state of every successful entry invocation: one
disjunct per entry operation, recording the state update it performs and
the branch conditions later proofs rely on. -/
theorem step_ok_cases {cfg : Config} {s s' : ContractState} {op : Op}
    (h : step cfg s op = .ok s') :
    (∃ admin, s.initialized = false ∧
        s' = { s with initialized := true, admins := [admin] })
  ∨ (∃ now sender recipient agent asset amount expiry rt,
        s' = { s with
               nextId := s.nextId + 1,
               remits := fun n =>
                 if n = s.nextId then
                   some ⟨sender, recipient, agent, asset, amount, now, expiry, .Created, none⟩
                 else s.remits n,
               rates := fun a => if a = sender then rt else s.rates a })
  ∨ (∃ now id ref r, s.remits id = some r ∧
        (r.status = .Created ∨ r.status = .Pending) ∧
        r.settlementRef = none ∧ ref ∉ s.usedRefs ∧ now < r.expiry ∧
        s' = { s with
               remits := fun n =>
                 if n = id then some { r with status := .Settled, settlementRef := some ref }
                 else s.remits n,
               usedRefs := ref :: s.usedRefs })
  ∨ (∃ id r, s.remits id = some r ∧
        (r.status = .Created ∨ r.status = .Pending) ∧
        s' = { s with
               remits := fun n =>
                 if n = id then some { r with status := .Expired } else s.remits n })
  ∨ (∃ id r, s.remits id = some r ∧
        (r.status = .Created ∨ r.status = .Pending) ∧
        s' = { s with
               remits := fun n =>
                 if n = id then some { r with status := .Cancelled } else s.remits n })
  ∨ (∃ a, s' = { s with admins := a :: s.admins })
  ∨ (∃ t, t ∈ s.admins ∧ s.admins.length ≠ 1 ∧
        s' = { s with admins := s.admins.erase t })
  ∨ (∃ g, s' = { s with agents := g :: s.agents })
  ∨ (∃ g, s' = { s with agents := s.agents.erase g })
  ∨ (∃ t, s' = { s with tokens := t :: s.tokens })
  ∨ (∃ t, s' = { s with tokens := s.tokens.erase t })
  ∨ (s' = { s with paused := true })
  ∨ (s' = { s with paused := false })
  ∨ (∃ q, s' = { s with appliedSeq := q }) := by
  cases op with
  | initializeContract admin =>
    simp only [step, SwiftRemit.initializeContract] at h
    split_ifs at h with h1 h2
    injection h with h
    subst h
    exact Or.inl ⟨admin, by simpa using h1, rfl⟩
  | create now sender recipient agent asset amount expiry =>
    simp only [step] at h
    rw [SwiftRemit.create] at h
    by_cases h1 : s.initialized = false
    · rw [if_pos h1] at h; exact Except.noConfusion h
    rw [if_neg h1] at h
    by_cases h2 : ¬ (validAddr sender = true ∧ validAddr recipient = true ∧ validAddr agent = true)
    · rw [if_pos h2] at h; exact Except.noConfusion h
    rw [if_neg h2] at h
    by_cases h3 : amount = 0 ∨ cfg.maxAmount < amount
    · rw [if_pos h3] at h; exact Except.noConfusion h
    rw [if_neg h3] at h
    by_cases h4 : asset ∉ s.tokens
    · rw [if_pos h4] at h; exact Except.noConfusion h
    rw [if_neg h4] at h
    by_cases h5 : agent ∉ s.agents
    · rw [if_pos h5] at h; exact Except.noConfusion h
    rw [if_neg h5] at h
    by_cases h6 : s.paused = true
    · rw [if_pos h6] at h; exact Except.noConfusion h
    rw [if_neg h6] at h
    by_cases h7 : cfg.perWindowCap < (rollRate cfg now (s.rates sender)).count + 1
    · rw [if_pos h7] at h; exact Except.noConfusion h
    rw [if_neg h7] at h
    by_cases h8 : U64 ≤ (rollRate cfg now (s.rates sender)).dailyAmount + amount
    · rw [if_pos h8] at h; exact Except.noConfusion h
    rw [if_neg h8] at h
    by_cases h9 : cfg.dailyCap < (rollRate cfg now (s.rates sender)).dailyAmount + amount
    · rw [if_pos h9] at h; exact Except.noConfusion h
    rw [if_neg h9] at h
    injection h with h
    subst h
    exact Or.inr (Or.inl ⟨now, sender, recipient, agent, asset, amount, expiry, _, rfl⟩)
  | settle now caller id ref =>
    simp only [step, SwiftRemit.settle] at h
    split_ifs at h with h1
    cases hr : s.remits id with
    | none => rw [hr] at h; exact Except.noConfusion h
    | some r =>
      rw [hr] at h
      simp only at h
      split_ifs at h with hc hst hexp hdup
      injection h with h
      subst h
      push_neg at hdup
      refine Or.inr (Or.inr (Or.inl ⟨now, id, ref, r, hr, hst, ?_, hdup.2, by omega, rfl⟩))
      cases hsr : r.settlementRef with
      | none => rfl
      | some v => exact absurd (by simp [hsr]) hdup.1
  | expire now id =>
    simp only [step, SwiftRemit.expire] at h
    split_ifs at h with h1
    cases hr : s.remits id with
    | none => rw [hr] at h; exact Except.noConfusion h
    | some r =>
      rw [hr] at h
      simp only at h
      split_ifs at h with hst hexp
      injection h with h
      subst h
      exact Or.inr (Or.inr (Or.inr (Or.inl ⟨id, r, hr, hst, rfl⟩)))
  | cancel caller id =>
    simp only [step, SwiftRemit.cancel] at h
    split_ifs at h with h1
    cases hr : s.remits id with
    | none => rw [hr] at h; exact Except.noConfusion h
    | some r =>
      rw [hr] at h
      simp only at h
      split_ifs at h with hc hst
      injection h with h
      subst h
      exact Or.inr (Or.inr (Or.inr (Or.inr (Or.inl ⟨id, r, hr, hst, rfl⟩))))
  | addAdmin caller a =>
    simp only [step, SwiftRemit.addAdmin] at h
    split_ifs at h with h1 h2 h3 h4
    injection h with h
    subst h
    exact Or.inr (Or.inr (Or.inr (Or.inr (Or.inr (Or.inl ⟨a, rfl⟩)))))
  | removeAdmin caller t =>
    simp only [step, SwiftRemit.removeAdmin] at h
    split_ifs at h with h1 h2 h3 h4
    injection h with h
    subst h
    exact Or.inr (Or.inr (Or.inr (Or.inr (Or.inr (Or.inr (Or.inl
      ⟨t, h3, h4, rfl⟩))))))
  | registerAgent caller g =>
    simp only [step, SwiftRemit.registerAgent] at h
    split_ifs at h with h1 h2 h3 h4
    injection h with h
    subst h
    exact Or.inr (Or.inr (Or.inr (Or.inr (Or.inr (Or.inr (Or.inr (Or.inl ⟨g, rfl⟩)))))))
  | removeAgent caller g =>
    simp only [step, SwiftRemit.removeAgent] at h
    split_ifs at h with h1 h2 h3
    injection h with h
    subst h
    exact Or.inr (Or.inr (Or.inr (Or.inr (Or.inr (Or.inr (Or.inr (Or.inr (Or.inl
      ⟨g, rfl⟩))))))))
  | whitelistToken caller t =>
    simp only [step, SwiftRemit.whitelistToken] at h
    split_ifs at h with h1 h2 h3
    injection h with h
    subst h
    exact Or.inr (Or.inr (Or.inr (Or.inr (Or.inr (Or.inr (Or.inr (Or.inr (Or.inr (Or.inl
      ⟨t, rfl⟩)))))))))
  | delistToken caller t =>
    simp only [step, SwiftRemit.delistToken] at h
    split_ifs at h with h1 h2 h3
    injection h with h
    subst h
    exact Or.inr (Or.inr (Or.inr (Or.inr (Or.inr (Or.inr (Or.inr (Or.inr (Or.inr (Or.inr
      (Or.inl ⟨t, rfl⟩))))))))))
  | pauseGate caller =>
    simp only [step, SwiftRemit.pauseGate] at h
    split_ifs at h with h1 h2
    injection h with h
    subst h
    exact Or.inr (Or.inr (Or.inr (Or.inr (Or.inr (Or.inr (Or.inr (Or.inr (Or.inr (Or.inr
      (Or.inr (Or.inl rfl)))))))))))
  | unpauseGate caller =>
    simp only [step, SwiftRemit.unpauseGate] at h
    split_ifs at h with h1 h2
    injection h with h
    subst h
    exact Or.inr (Or.inr (Or.inr (Or.inr (Or.inr (Or.inr (Or.inr (Or.inr (Or.inr (Or.inr
      (Or.inr (Or.inr (Or.inl rfl))))))))))))
  | submitBatch caller seqNo payload declaredHash =>
    simp only [step, SwiftRemit.submitBatch] at h
    split_ifs at h with h1 h2 h3 h4 h5
    injection h with h
    subst h
    exact Or.inr (Or.inr (Or.inr (Or.inr (Or.inr (Or.inr (Or.inr (Or.inr (Or.inr (Or.inr
      (Or.inr (Or.inr (Or.inr ⟨seqNo, rfl⟩))))))))))))

/-- The invariant holds in the initial state. -/
theorem inv_initState : Inv initState := by
  refine ⟨fun id _ => rfl, fun id r hr => Option.noConfusion hr,
    fun id r v hr _ => Option.noConfusion hr,
    fun id1 id2 r1 r2 v hr1 _ _ _ => Option.noConfusion hr1,
    fun hi => Bool.noConfusion hi⟩

/-- Every successful entry invocation preserves the invariant. -/
theorem inv_step {cfg : Config} {s s' : ContractState} {op : Op}
    (hInv : Inv s) (h : step cfg s op = .ok s') : Inv s' := by
  obtain ⟨hF, hRS, hRR, hRU, hA⟩ := hInv
  rcases step_ok_cases h with
    ⟨admin, hi, rfl⟩ | ⟨now, sender, recipient, agent, asset, amount, expiry, rt, rfl⟩ |
    ⟨now, id, ref, r, hr, hst, hnone, hused, hexp, rfl⟩ |
    ⟨id, r, hr, hst, rfl⟩ | ⟨id, r, hr, hst, rfl⟩ |
    ⟨a, rfl⟩ | ⟨t, ht, hlen, rfl⟩ | ⟨g, rfl⟩ | ⟨g, rfl⟩ | ⟨t, rfl⟩ | ⟨t, rfl⟩ |
    rfl | rfl | ⟨q, rfl⟩
  · -- inl
    exact ⟨hF, hRS, hRR, hRU, fun _ => by simp⟩
  · -- inr.inl
    refine ⟨?_, ?_, ?_, ?_, fun hi => hA hi⟩
    · intro id hid
      have hid2 : s.nextId + 1 ≤ id := hid
      show (if id = s.nextId then
          some ⟨sender, recipient, agent, asset, amount, now, expiry, .Created, none⟩
        else s.remits id) = none
      rw [if_neg (by omega)]
      exact hF id (by omega)
    · intro id r hr
      have hr2 : (if id = s.nextId then
          some ⟨sender, recipient, agent, asset, amount, now, expiry, .Created, none⟩
        else s.remits id) = some r := hr
      by_cases hc : id = s.nextId
      · rw [if_pos hc] at hr2
        obtain rfl := Option.some.inj hr2
        simp
      · rw [if_neg hc] at hr2
        exact hRS id r hr2
    · intro id r v hr hv
      have hr2 : (if id = s.nextId then
          some ⟨sender, recipient, agent, asset, amount, now, expiry, .Created, none⟩
        else s.remits id) = some r := hr
      by_cases hc : id = s.nextId
      · rw [if_pos hc] at hr2
        obtain rfl := Option.some.inj hr2
        exact absurd hv (by simp)
      · rw [if_neg hc] at hr2
        exact hRR id r v hr2 hv
    · intro id1 id2 r1 r2 v hr1 hr2 hv1 hv2
      have hq1 : (if id1 = s.nextId then
          some ⟨sender, recipient, agent, asset, amount, now, expiry, .Created, none⟩
        else s.remits id1) = some r1 := hr1
      have hq2 : (if id2 = s.nextId then
          some ⟨sender, recipient, agent, asset, amount, now, expiry, .Created, none⟩
        else s.remits id2) = some r2 := hr2
      by_cases hc1 : id1 = s.nextId
      · rw [if_pos hc1] at hq1
        obtain rfl := Option.some.inj hq1
        exact absurd hv1 (by simp)
      · rw [if_neg hc1] at hq1
        by_cases hc2 : id2 = s.nextId
        · rw [if_pos hc2] at hq2
          obtain rfl := Option.some.inj hq2
          exact absurd hv2 (by simp)
        · rw [if_neg hc2] at hq2
          exact hRU id1 id2 r1 r2 v hq1 hq2 hv1 hv2
  · -- inr.inr.inl
    refine ⟨?_, ?_, ?_, ?_, fun hi => hA hi⟩
    · intro j hj
      have hj2 : s.nextId ≤ j := hj
      show (if j = id then some { r with status := .Settled, settlementRef := some ref }
        else s.remits j) = none
      by_cases hc : j = id
      · subst hc
        rw [hF j hj2] at hr
        exact Option.noConfusion hr
      · rw [if_neg hc]
        exact hF j hj2
    · intro j r2 hj
      have hj2 : (if j = id then some { r with status := .Settled, settlementRef := some ref }
        else s.remits j) = some r2 := hj
      by_cases hc : j = id
      · rw [if_pos hc] at hj2
        obtain rfl := Option.some.inj hj2
        simp
      · rw [if_neg hc] at hj2
        exact hRS j r2 hj2
    · intro j r2 v hj hv
      have hj2 : (if j = id then some { r with status := .Settled, settlementRef := some ref }
        else s.remits j) = some r2 := hj
      by_cases hc : j = id
      · rw [if_pos hc] at hj2
        obtain rfl := Option.some.inj hj2
        have : v = ref := by simpa using hv.symm
        subst this
        exact List.mem_cons_self _ _
      · rw [if_neg hc] at hj2
        exact List.mem_cons_of_mem _ (hRR j r2 v hj2 hv)
    · intro id1 id2 r1 r2 v hr1 hr2 hv1 hv2
      have hq1 : (if id1 = id then some { r with status := .Settled, settlementRef := some ref }
        else s.remits id1) = some r1 := hr1
      have hq2 : (if id2 = id then some { r with status := .Settled, settlementRef := some ref }
        else s.remits id2) = some r2 := hr2
      by_cases hc1 : id1 = id
      · rw [if_pos hc1] at hq1
        obtain rfl := Option.some.inj hq1
        have hv : v = ref := by simpa using hv1.symm
        subst hv
        by_cases hc2 : id2 = id
        · rw [hc1, hc2]
        · rw [if_neg hc2] at hq2
          exact absurd (hRR id2 r2 v hq2 hv2) hused
      · rw [if_neg hc1] at hq1
        by_cases hc2 : id2 = id
        · rw [if_pos hc2] at hq2
          obtain rfl := Option.some.inj hq2
          have hv : v = ref := by simpa using hv2.symm
          subst hv
          exact absurd (hRR id1 r1 v hq1 hv1) hused
        · rw [if_neg hc2] at hq2
          exact hRU id1 id2 r1 r2 v hq1 hq2 hv1 hv2
  · -- inr.inr.inr.inl
    have hnone : r.settlementRef = none := by
      cases hsr : r.settlementRef with
      | none => rfl
      | some v =>
        have hsettled : r.status = Status.Settled := (hRS id r hr).mp (by simp [hsr])
        rcases hst with hcp | hcp <;> rw [hsettled] at hcp <;> exact Status.noConfusion hcp
    refine ⟨?_, ?_, ?_, ?_, fun hi => hA hi⟩
    · intro j hj
      have hj2 : s.nextId ≤ j := hj
      show (if j = id then some { r with status := .Expired } else s.remits j) = none
      by_cases hc : j = id
      · subst hc
        rw [hF j hj2] at hr
        exact Option.noConfusion hr
      · rw [if_neg hc]
        exact hF j hj2
    · intro j r2 hj
      have hj2 : (if j = id then some { r with status := .Expired }
        else s.remits j) = some r2 := hj
      by_cases hc : j = id
      · rw [if_pos hc] at hj2
        obtain rfl := Option.some.inj hj2
        simp [hnone]
      · rw [if_neg hc] at hj2
        exact hRS j r2 hj2
    · intro j r2 v hj hv
      have hj2 : (if j = id then some { r with status := .Expired }
        else s.remits j) = some r2 := hj
      by_cases hc : j = id
      · rw [if_pos hc] at hj2
        obtain rfl := Option.some.inj hj2
        rw [show ({ r with status := .Expired } : Remittance).settlementRef
          = r.settlementRef from rfl, hnone] at hv
        exact Option.noConfusion hv
      · rw [if_neg hc] at hj2
        exact hRR j r2 v hj2 hv
    · intro id1 id2 r1 r2 v hr1 hr2 hv1 hv2
      have hq1 : (if id1 = id then some { r with status := .Expired }
        else s.remits id1) = some r1 := hr1
      have hq2 : (if id2 = id then some { r with status := .Expired }
        else s.remits id2) = some r2 := hr2
      by_cases hc1 : id1 = id
      · rw [if_pos hc1] at hq1
        obtain rfl := Option.some.inj hq1
        rw [show ({ r with status := .Expired } : Remittance).settlementRef
          = r.settlementRef from rfl, hnone] at hv1
        exact Option.noConfusion hv1
      · rw [if_neg hc1] at hq1
        by_cases hc2 : id2 = id
        · rw [if_pos hc2] at hq2
          obtain rfl := Option.some.inj hq2
          rw [show ({ r with status := .Expired } : Remittance).settlementRef
            = r.settlementRef from rfl, hnone] at hv2
          exact Option.noConfusion hv2
        · rw [if_neg hc2] at hq2
          exact hRU id1 id2 r1 r2 v hq1 hq2 hv1 hv2
  · -- inr.inr.inr.inr.inl
    have hnone : r.settlementRef = none := by
      cases hsr : r.settlementRef with
      | none => rfl
      | some v =>
        have hsettled : r.status = Status.Settled := (hRS id r hr).mp (by simp [hsr])
        rcases hst with hcp | hcp <;> rw [hsettled] at hcp <;> exact Status.noConfusion hcp
    refine ⟨?_, ?_, ?_, ?_, fun hi => hA hi⟩
    · intro j hj
      have hj2 : s.nextId ≤ j := hj
      show (if j = id then some { r with status := .Cancelled } else s.remits j) = none
      by_cases hc : j = id
      · subst hc
        rw [hF j hj2] at hr
        exact Option.noConfusion hr
      · rw [if_neg hc]
        exact hF j hj2
    · intro j r2 hj
      have hj2 : (if j = id then some { r with status := .Cancelled }
        else s.remits j) = some r2 := hj
      by_cases hc : j = id
      · rw [if_pos hc] at hj2
        obtain rfl := Option.some.inj hj2
        simp [hnone]
      · rw [if_neg hc] at hj2
        exact hRS j r2 hj2
    · intro j r2 v hj hv
      have hj2 : (if j = id then some { r with status := .Cancelled }
        else s.remits j) = some r2 := hj
      by_cases hc : j = id
      · rw [if_pos hc] at hj2
        obtain rfl := Option.some.inj hj2
        rw [show ({ r with status := .Cancelled } : Remittance).settlementRef
          = r.settlementRef from rfl, hnone] at hv
        exact Option.noConfusion hv
      · rw [if_neg hc] at hj2
        exact hRR j r2 v hj2 hv
    · intro id1 id2 r1 r2 v hr1 hr2 hv1 hv2
      have hq1 : (if id1 = id then some { r with status := .Cancelled }
        else s.remits id1) = some r1 := hr1
      have hq2 : (if id2 = id then some { r with status := .Cancelled }
        else s.remits id2) = some r2 := hr2
      by_cases hc1 : id1 = id
      · rw [if_pos hc1] at hq1
        obtain rfl := Option.some.inj hq1
        rw [show ({ r with status := .Cancelled } : Remittance).settlementRef
          = r.settlementRef from rfl, hnone] at hv1
        exact Option.noConfusion hv1
      · rw [if_neg hc1] at hq1
        by_cases hc2 : id2 = id
        · rw [if_pos hc2] at hq2
          obtain rfl := Option.some.inj hq2
          rw [show ({ r with status := .Cancelled } : Remittance).settlementRef
            = r.settlementRef from rfl, hnone] at hv2
          exact Option.noConfusion hv2
        · rw [if_neg hc2] at hq2
          exact hRU id1 id2 r1 r2 v hq1 hq2 hv1 hv2
  · -- inr.inr.inr.inr.inr.inl
    exact ⟨hF, hRS, hRR, hRU, fun _ => by simp⟩
  · -- inr.inr.inr.inr.inr.inr.inl
    refine ⟨hF, hRS, hRR, hRU, fun _ => ?_⟩
    show s.admins.erase t ≠ []
    have hpos : 0 < s.admins.length := List.length_pos.mpr (List.ne_nil_of_mem ht)
    have herase : (s.admins.erase t).length = s.admins.length - 1 :=
      List.length_erase_of_mem ht
    exact List.length_pos.mp (by omega)
  all_goals exact ⟨hF, hRS, hRR, hRU, fun hi => hA hi⟩

/-- The invariant carries along any successful execution trace. -/
theorem inv_reachFrom {cfg : Config} {s s2 : ContractState}
    (hInv : Inv s) (h : ReachFrom cfg s s2) : Inv s2 := by
  induction h with
  | refl => exact hInv
  | tail _ hstep ih => exact inv_step ih hstep

/-- Every reachable state satisfies the invariant. -/
theorem reachable_inv {cfg : Config} {s : ContractState}
    (h : Reachable cfg s) : Inv s :=
  inv_reachFrom inv_initState h

/-- Reachability composes. -/
theorem reachFrom_trans {cfg : Config} {s1 s2 s3 : ContractState}
    (h12 : ReachFrom cfg s1 s2) (h23 : ReachFrom cfg s2 s3) : ReachFrom cfg s1 s3 := by
  induction h23 with
  | refl => exact h12
  | tail _ hstep ih => exact ReachFrom.tail ih hstep

/-- No successful invocation clears the initialization flag. -/
theorem initialized_mono {cfg : Config} {s s' : ContractState} {op : Op}
    (h : step cfg s op = .ok s') (hi : s.initialized = true) : s'.initialized = true := by
  rcases step_ok_cases h with
    ⟨admin, _, rfl⟩ | ⟨now, sender, recipient, agent, asset, amount, expiry, rt, rfl⟩ |
    ⟨now, id, ref, r, _, _, _, _, _, rfl⟩ |
    ⟨id, r, _, _, rfl⟩ | ⟨id, r, _, _, rfl⟩ |
    ⟨a, rfl⟩ | ⟨t, _, _, rfl⟩ | ⟨g, rfl⟩ | ⟨g, rfl⟩ | ⟨t, rfl⟩ | ⟨t, rfl⟩ |
    rfl | rfl | ⟨q, rfl⟩
  all_goals first | rfl | exact hi

/-- The initialization flag persists along any successful trace. -/
theorem initialized_mono_reach {cfg : Config} {s s2 : ContractState}
    (h : ReachFrom cfg s s2) (hi : s.initialized = true) : s2.initialized = true := by
  induction h with
  | refl => exact hi
  | tail _ hstep ih => exact initialized_mono hstep ih

/-- The set of used settlement references only grows. -/
theorem usedRefs_mono {cfg : Config} {s s' : ContractState} {op : Op} {v : Nat}
    (h : step cfg s op = .ok s') (hv : v ∈ s.usedRefs) : v ∈ s'.usedRefs := by
  rcases step_ok_cases h with
    ⟨admin, _, rfl⟩ | ⟨now, sender, recipient, agent, asset, amount, expiry, rt, rfl⟩ |
    ⟨now, id, ref, r, _, _, _, _, _, rfl⟩ |
    ⟨id, r, _, _, rfl⟩ | ⟨id, r, _, _, rfl⟩ |
    ⟨a, rfl⟩ | ⟨t, _, _, rfl⟩ | ⟨g, rfl⟩ | ⟨g, rfl⟩ | ⟨t, rfl⟩ | ⟨t, rfl⟩ |
    rfl | rfl | ⟨q, rfl⟩
  all_goals first | exact hv | exact List.mem_cons_of_mem _ hv

/-- Used settlement references persist along any successful trace. -/
theorem usedRefs_mono_reach {cfg : Config} {s s2 : ContractState} {v : Nat}
    (h : ReachFrom cfg s s2) (hv : v ∈ s.usedRefs) : v ∈ s2.usedRefs := by
  induction h with
  | refl => exact hv
  | tail _ hstep ih => exact usedRefs_mono hstep ih

/-- A settled remittance record is never modified by a later invocation. -/
theorem settled_persist {cfg : Config} {s s' : ContractState} {op : Op}
    {id : Nat} {r : Remittance}
    (hInv : Inv s) (h : step cfg s op = .ok s') (hr : s.remits id = some r)
    (hsettled : r.status = Status.Settled) : s'.remits id = some r := by
  obtain ⟨hF, hRS, hRR, hRU, hA⟩ := hInv
  rcases step_ok_cases h with
    ⟨admin, _, rfl⟩ | ⟨now, sender, recipient, agent, asset, amount, expiry, rt, rfl⟩ |
    ⟨now, id2, ref, r2, hr2, hst2, _, _, _, rfl⟩ |
    ⟨id2, r2, hr2, hst2, rfl⟩ | ⟨id2, r2, hr2, hst2, rfl⟩ |
    ⟨a, rfl⟩ | ⟨t, _, _, rfl⟩ | ⟨g, rfl⟩ | ⟨g, rfl⟩ | ⟨t, rfl⟩ | ⟨t, rfl⟩ |
    rfl | rfl | ⟨q, rfl⟩
  · exact hr
  · show (if id = s.nextId then
        some ⟨sender, recipient, agent, asset, amount, now, expiry, .Created, none⟩
      else s.remits id) = some r
    by_cases hc : id = s.nextId
    · rw [hF id (le_of_eq hc.symm)] at hr
      exact Option.noConfusion hr
    · rw [if_neg hc]
      exact hr
  · show (if id = id2 then some { r2 with status := .Settled, settlementRef := some ref }
      else s.remits id) = some r
    by_cases hc : id = id2
    · subst hc
      obtain rfl := Option.some.inj (hr.symm.trans hr2)
      rcases hst2 with hcp | hcp <;> rw [hsettled] at hcp <;> exact Status.noConfusion hcp
    · rw [if_neg hc]
      exact hr
  · show (if id = id2 then some { r2 with status := .Expired }
      else s.remits id) = some r
    by_cases hc : id = id2
    · subst hc
      obtain rfl := Option.some.inj (hr.symm.trans hr2)
      rcases hst2 with hcp | hcp <;> rw [hsettled] at hcp <;> exact Status.noConfusion hcp
    · rw [if_neg hc]
      exact hr
  · show (if id = id2 then some { r2 with status := .Cancelled }
      else s.remits id) = some r
    by_cases hc : id = id2
    · subst hc
      obtain rfl := Option.some.inj (hr.symm.trans hr2)
      rcases hst2 with hcp | hcp <;> rw [hsettled] at hcp <;> exact Status.noConfusion hcp
    · rw [if_neg hc]
      exact hr
  all_goals exact hr

/-- A settled remittance record persists along any successful trace. -/
theorem settled_persist_reach {cfg : Config} {s s2 : ContractState}
    {id : Nat} {r : Remittance}
    (hInv : Inv s) (h : ReachFrom cfg s s2) (hr : s.remits id = some r)
    (hsettled : r.status = Status.Settled) : s2.remits id = some r := by
  induction h with
  | refl => exact hr
  | tail h12 hstep ih => exact settled_persist (inv_reachFrom hInv h12) hstep ih hsettled

/-- One successful invocation moves the status of an existing record along
an allowed edge or leaves the record unchanged. -/
theorem status_edge_step {cfg : Config} {s s' : ContractState} {op : Op}
    {id : Nat} {r r' : Remittance}
    (hInv : Inv s) (h : step cfg s op = .ok s')
    (hr : s.remits id = some r) (hr' : s'.remits id = some r') :
    r' = r ∨ stepEdge r.status r'.status = true := by
  obtain ⟨hF, hRS, hRR, hRU, hA⟩ := hInv
  rcases step_ok_cases h with
    ⟨admin, _, rfl⟩ | ⟨now, sender, recipient, agent, asset, amount, expiry, rt, rfl⟩ |
    ⟨now, id2, ref, r2, hr2, hst2, _, _, _, rfl⟩ |
    ⟨id2, r2, hr2, hst2, rfl⟩ | ⟨id2, r2, hr2, hst2, rfl⟩ |
    ⟨a, rfl⟩ | ⟨t, _, _, rfl⟩ | ⟨g, rfl⟩ | ⟨g, rfl⟩ | ⟨t, rfl⟩ | ⟨t, rfl⟩ |
    rfl | rfl | ⟨q, rfl⟩
  · exact Or.inl (Option.some.inj (hr.symm.trans hr')).symm
  · have hq : (if id = s.nextId then
        some ⟨sender, recipient, agent, asset, amount, now, expiry, .Created, none⟩
      else s.remits id) = some r' := hr'
    by_cases hc : id = s.nextId
    · rw [hF id (le_of_eq hc.symm)] at hr
      exact Option.noConfusion hr
    · rw [if_neg hc] at hq
      exact Or.inl (Option.some.inj (hr.symm.trans hq)).symm
  · have hq : (if id = id2 then some { r2 with status := .Settled, settlementRef := some ref }
      else s.remits id) = some r' := hr'
    by_cases hc : id = id2
    · subst hc
      obtain rfl := Option.some.inj (hr.symm.trans hr2)
      rw [if_pos rfl] at hq
      obtain rfl := Option.some.inj hq
      refine Or.inr ?_
      rcases hst2 with hcp | hcp <;> rw [hcp] <;> rfl
    · rw [if_neg hc] at hq
      exact Or.inl (Option.some.inj (hr.symm.trans hq)).symm
  · have hq : (if id = id2 then some { r2 with status := .Expired }
      else s.remits id) = some r' := hr'
    by_cases hc : id = id2
    · subst hc
      obtain rfl := Option.some.inj (hr.symm.trans hr2)
      rw [if_pos rfl] at hq
      obtain rfl := Option.some.inj hq
      refine Or.inr ?_
      rcases hst2 with hcp | hcp <;> rw [hcp] <;> rfl
    · rw [if_neg hc] at hq
      exact Or.inl (Option.some.inj (hr.symm.trans hq)).symm
  · have hq : (if id = id2 then some { r2 with status := .Cancelled }
      else s.remits id) = some r' := hr'
    by_cases hc : id = id2
    · subst hc
      obtain rfl := Option.some.inj (hr.symm.trans hr2)
      rw [if_pos rfl] at hq
      obtain rfl := Option.some.inj hq
      refine Or.inr ?_
      rcases hst2 with hcp | hcp <;> rw [hcp] <;> rfl
    · rw [if_neg hc] at hq
      exact Or.inl (Option.some.inj (hr.symm.trans hq)).symm
  all_goals exact Or.inl (Option.some.inj (hr.symm.trans hr')).symm

/-- `settle` on an initialized state with an existing record reduces to its
inner checks. -/
theorem settle_some {s : ContractState} {now caller id ref : Nat} {r : Remittance}
    (hi : s.initialized = true) (hr : s.remits id = some r) :
    settle s now caller id ref =
      (if caller ≠ r.agent then .error .Unauthorized
       else if ¬(r.status = .Created ∨ r.status = .Pending) then .error .InvalidStatus
       else if r.expiry ≤ now then .error .SettlementExpired
       else if r.settlementRef.isSome = true ∨ ref ∈ s.usedRefs then
         .error .DuplicateSettlement
       else .ok { s with
              remits := fun n =>
                if n = id then some { r with status := .Settled, settlementRef := some ref }
                else s.remits n,
              usedRefs := ref :: s.usedRefs }) := by
  rw [settle, if_neg (by simp [hi]), hr]

/-- `expire` on an initialized state with an existing record reduces to its
inner checks. -/
theorem expire_some {s : ContractState} {now id : Nat} {r : Remittance}
    (hi : s.initialized = true) (hr : s.remits id = some r) :
    expire s now id =
      (if ¬(r.status = .Created ∨ r.status = .Pending) then .error .InvalidStatus
       else if now < r.expiry then .error .InvalidStatus
       else .ok { s with
              remits := fun n =>
                if n = id then some { r with status := .Expired } else s.remits n }) := by
  rw [expire, if_neg (by simp [hi]), hr]

/-- `cancel` on an initialized state with an existing record reduces to its
inner checks. -/
theorem cancel_some {s : ContractState} {caller id : Nat} {r : Remittance}
    (hi : s.initialized = true) (hr : s.remits id = some r) :
    cancel s caller id =
      (if ¬(caller ∈ s.admins ∨ caller = r.sender) then .error .Unauthorized
       else if ¬(r.status = .Created ∨ r.status = .Pending) then .error .InvalidStatus
       else .ok { s with
              remits := fun n =>
                if n = id then some { r with status := .Cancelled } else s.remits n }) := by
  rw [cancel, if_neg (by simp [hi]), hr]

/-- Everything a successful `settle` implies about its input state, and the
exact shape of its output state. -/
theorem settle_ok_spec {s s' : ContractState} {now caller id ref : Nat}
    (h : settle s now caller id ref = .ok s') :
    s.initialized = true ∧ ∃ r, s.remits id = some r ∧ caller = r.agent ∧
      (r.status = .Created ∨ r.status = .Pending) ∧ now < r.expiry ∧
      r.settlementRef = none ∧ ref ∉ s.usedRefs ∧
      s' = { s with
             remits := fun n =>
               if n = id then some { r with status := .Settled, settlementRef := some ref }
               else s.remits n,
             usedRefs := ref :: s.usedRefs } := by
  rw [settle] at h
  split_ifs at h with h1
  cases hr : s.remits id with
  | none => rw [hr] at h; exact Except.noConfusion h
  | some r =>
    rw [hr] at h
    simp only at h
    split_ifs at h with hc hst hexp hdup
    injection h with h
    subst h
    push_neg at hdup
    refine ⟨by simpa using h1, r, rfl, not_not.mp hc, hst, by omega, ?_, hdup.2, rfl⟩
    cases hsr : r.settlementRef with
    | none => rfl
    | some v => exact absurd (by simp [hsr]) hdup.1

theorem sW0_reachable : Reachable cfgW sW0 :=
  @ReachFrom.tail cfgW initState sWc sW0 (Op.create 0 2 3 5 7 100 50)
    (@ReachFrom.tail cfgW initState sWb sWc (Op.registerAgent 1 5)
      (@ReachFrom.tail cfgW initState sWa sWb (Op.whitelistToken 1 7)
        (@ReachFrom.tail cfgW initState initState sWa (Op.initializeContract 1)
          ReachFrom.refl rfl) rfl) rfl) rfl

theorem sW1_reachable : Reachable cfgW sW1 :=
  @ReachFrom.tail cfgW initState sW0 sW1 (Op.settle 1 5 0 42) sW0_reachable rfl

/-- Claim C6: every entry operation that returns an error leaves the
observable state exactly as it was before the call: all preconditions are
validated before any mutation, so no partial state change is observable on
failure. -/
theorem atomic_rejection (cfg : Config) (s : ContractState) (op : Op)
    (e : ContractError) (h : step cfg s op = .error e) : exec cfg s op = s := by
  rw [exec, h]

theorem atomic_rejection_witness :
    exec cfgW initState (Op.pauseGate 1) = initState :=
  atomic_rejection cfgW initState (Op.pauseGate 1) ContractError.NotInitialized rfl

/-- Claim C8: a second call to initialize fails AlreadyInitialized, and
every other entry operation invoked before any successful initialize fails
NotInitialized. -/
theorem initialization_gate (cfg : Config) (s : ContractState) :
    (∀ admin, s.initialized = true →
        initializeContract s admin = .error .AlreadyInitialized)
    ∧ (∀ op : Op, op.isInit = false → s.initialized = false →
        step cfg s op = .error .NotInitialized) := by
  constructor
  · intro admin hi
    rw [initializeContract, if_pos hi]
  · intro op hop hi
    cases op with
    | initializeContract admin => exact absurd hop (by simp [Op.isInit])
    | create now sender recipient agent asset amount expiry =>
      simp only [step]; rw [SwiftRemit.create, if_pos hi]
    | settle now caller id ref =>
      simp only [step]; rw [SwiftRemit.settle, if_pos hi]
    | expire now id =>
      simp only [step]; rw [SwiftRemit.expire, if_pos hi]
    | cancel caller id =>
      simp only [step]; rw [SwiftRemit.cancel, if_pos hi]
    | addAdmin caller a =>
      simp only [step]; rw [SwiftRemit.addAdmin, if_pos hi]
    | removeAdmin caller t =>
      simp only [step]; rw [SwiftRemit.removeAdmin, if_pos hi]
    | registerAgent caller g =>
      simp only [step]; rw [SwiftRemit.registerAgent, if_pos hi]
    | removeAgent caller g =>
      simp only [step]; rw [SwiftRemit.removeAgent, if_pos hi]
    | whitelistToken caller t =>
      simp only [step]; rw [SwiftRemit.whitelistToken, if_pos hi]
    | delistToken caller t =>
      simp only [step]; rw [SwiftRemit.delistToken, if_pos hi]
    | pauseGate caller =>
      simp only [step]; rw [SwiftRemit.pauseGate, if_pos hi]
    | unpauseGate caller =>
      simp only [step]; rw [SwiftRemit.unpauseGate, if_pos hi]
    | submitBatch caller seqNo payload declaredHash =>
      simp only [step]; rw [SwiftRemit.submitBatch, if_pos hi]

theorem initialization_gate_witness :
    initializeContract sW0 9 = Except.error ContractError.AlreadyInitialized
    ∧ step cfgW initState (Op.settle 0 5 0 42)
        = Except.error ContractError.NotInitialized :=
  ⟨(initialization_gate cfgW sW0).1 9 rfl,
   (initialization_gate cfgW initState).2 (Op.settle 0 5 0 42) rfl rfl⟩

/-- Claim C9: every entry operation returns either a success value or one
of the 24 distinct error kinds, and the error kinds named by the taxonomy
groups of the spec are exactly the variants of the `ContractError` enum. -/
theorem error_surface_complete :
    allErrors.length = 24
    ∧ allErrors.Nodup
    ∧ (∀ e : ContractError, e ∈ allErrors)
    ∧ (∀ e : ContractError, e ∈ specTaxonomy ↔ e ∈ allErrors)
    ∧ (∀ (cfg : Config) (s : ContractState) (op : Op),
        (∃ t, step cfg s op = .ok t) ∨ ∃ e, step cfg s op = .error e ∧ e ∈ allErrors) := by
  refine ⟨rfl, by decide, by decide, by decide, ?_⟩
  intro cfg s op
  cases hstep : step cfg s op with
  | ok t => exact Or.inl ⟨t, rfl⟩
  | error e => exact Or.inr ⟨e, rfl, by cases e <;> decide⟩

/-- Claim C10: the 24 variants of `ContractError` carry pairwise-distinct
`u32` discriminants numbered consecutively from `NotInitialized = 1`
through `DailySendLimitExceeded = 24`, so the wire-code mapping is
injective and gapless. -/
theorem error_code_bijection :
    ContractError.code .NotInitialized = 1
    ∧ ContractError.code .DailySendLimitExceeded = 24
    ∧ (∀ e1 e2 : ContractError, ContractError.code e1 = ContractError.code e2 → e1 = e2)
    ∧ allErrors.map ContractError.code = (List.range 24).map (fun n => n + 1) := by
  refine ⟨rfl, rfl, by decide, by decide⟩

theorem error_code_bijection_witness :
    ContractError.Overflow = ContractError.Overflow ∧ ContractError.code ContractError.Overflow = 7 :=
  ⟨error_code_bijection.2.2.1 ContractError.Overflow ContractError.Overflow rfl, rfl⟩

/-- Claim C4: migration batches apply in strictly increasing, gapless
sequence order with no reapplication; a wrong sequence number fails
InvalidMigrationBatch, a hash mismatch fails InvalidMigrationHash, and a
failed submission mutates nothing. -/
theorem migration_ordering (cfg : Config) (s : ContractState) (caller seqNo : Nat)
    (payload : List Nat) (dh : Nat) :
    (∀ s', submitBatch s caller seqNo payload dh = .ok s' →
        seqNo = s.appliedSeq + 1 ∧ s'.appliedSeq = s.appliedSeq + 1 ∧
        hashPayload payload = dh ∧ s' = { s with appliedSeq := seqNo })
    ∧ (s.initialized = true → caller ∈ s.admins → s.migrationInFlight = false →
        seqNo ≠ s.appliedSeq + 1 →
        submitBatch s caller seqNo payload dh = .error .InvalidMigrationBatch)
    ∧ (s.initialized = true → caller ∈ s.admins → s.migrationInFlight = false →
        seqNo = s.appliedSeq + 1 → hashPayload payload ≠ dh →
        submitBatch s caller seqNo payload dh = .error .InvalidMigrationHash)
    ∧ (∀ e, submitBatch s caller seqNo payload dh = .error e →
        exec cfg s (Op.submitBatch caller seqNo payload dh) = s) := by
  refine ⟨?_, ?_, ?_, ?_⟩
  · intro s' h
    rw [submitBatch] at h
    split_ifs at h with h1 h2 h3 h4 h5
    injection h with h
    subst h
    exact ⟨not_not.mp h4, not_not.mp h4, not_not.mp h5, rfl⟩
  · intro hi hc hm hs
    rw [submitBatch, if_neg (by simp [hi]), if_neg (not_not_intro hc),
      if_neg (by simp [hm]), if_pos hs]
  · intro hi hc hm hs hh
    rw [submitBatch, if_neg (by simp [hi]), if_neg (not_not_intro hc),
      if_neg (by simp [hm]), if_neg (not_not_intro hs), if_pos hh]
  · intro e h
    rw [exec]
    simp only [step]
    rw [h]

theorem migration_ordering_witness :
    submitBatch sW0 1 2 [3] 166814 = Except.error ContractError.InvalidMigrationBatch
    ∧ submitBatch sW0 1 1 [3] 0 = Except.error ContractError.InvalidMigrationHash
    ∧ exec cfgW sW0 (Op.submitBatch 1 2 [3] 166814) = sW0 :=
  ⟨(migration_ordering cfgW sW0 1 2 [3] 166814).2.1 rfl (by decide) rfl (by decide),
   (migration_ordering cfgW sW0 1 1 [3] 0).2.2.1 rfl (by decide) rfl rfl (by decide),
   (migration_ordering cfgW sW0 1 2 [3] 166814).2.2.2 ContractError.InvalidMigrationBatch rfl⟩

/-- Claim C5: a create that would push the sender's per-window count past
the configured cap fails RateLimitExceeded, one that would push the
sender's daily amount past the configured daily cap fails
DailySendLimitExceeded; a failed create mutates neither the ledger nor the
counters, and the counters are updated exactly when create succeeds. -/
theorem rate_limit_admission (cfg : Config) (s : ContractState)
    (now sender recipient agent asset amount expiry : Nat)
    (hInit : s.initialized = true)
    (hAddr : validAddr sender = true ∧ validAddr recipient = true ∧ validAddr agent = true)
    (hAmt : ¬(amount = 0 ∨ cfg.maxAmount < amount))
    (hTok : asset ∈ s.tokens) (hAg : agent ∈ s.agents) (hP : s.paused = false) :
    (cfg.perWindowCap < (rollRate cfg now (s.rates sender)).count + 1 →
        create cfg s now sender recipient agent asset amount expiry
          = .error .RateLimitExceeded)
    ∧ ((rollRate cfg now (s.rates sender)).count + 1 ≤ cfg.perWindowCap →
        (rollRate cfg now (s.rates sender)).dailyAmount + amount < U64 →
        cfg.dailyCap < (rollRate cfg now (s.rates sender)).dailyAmount + amount →
        create cfg s now sender recipient agent asset amount expiry
          = .error .DailySendLimitExceeded)
    ∧ (∀ e, create cfg s now sender recipient agent asset amount expiry = .error e →
        exec cfg s (Op.create now sender recipient agent asset amount expiry) = s)
    ∧ (∀ s', create cfg s now sender recipient agent asset amount expiry = .ok s' →
        s'.rates sender = ⟨curWindow cfg now,
          (rollRate cfg now (s.rates sender)).count + 1,
          (rollRate cfg now (s.rates sender)).dailyAmount + amount⟩
        ∧ s'.remits s.nextId
            = some ⟨sender, recipient, agent, asset, amount, now, expiry, .Created, none⟩
        ∧ s'.nextId = s.nextId + 1) := by
  refine ⟨?_, ?_, ?_, ?_⟩
  · intro hcap
    rw [create, if_neg (by simp [hInit]), if_neg (not_not_intro hAddr), if_neg hAmt,
      if_neg (not_not_intro hTok), if_neg (not_not_intro hAg), if_neg (by simp [hP]),
      if_pos hcap]
  · intro hcnt hlt hdc
    rw [create, if_neg (by simp [hInit]), if_neg (not_not_intro hAddr), if_neg hAmt,
      if_neg (not_not_intro hTok), if_neg (not_not_intro hAg), if_neg (by simp [hP]),
      if_neg (by omega), if_neg (by omega), if_pos hdc]
  · intro e h
    rw [exec]
    simp only [step]
    rw [h]
  · intro s' h
    rw [create, if_neg (by simp [hInit]), if_neg (not_not_intro hAddr), if_neg hAmt,
      if_neg (not_not_intro hTok), if_neg (not_not_intro hAg), if_neg (by simp [hP])] at h
    split_ifs at h with hc1 hc2 hc3
    injection h with h
    subst h
    refine ⟨?_, ?_, rfl⟩
    · show (if sender = sender then
          (⟨curWindow cfg now, (rollRate cfg now (s.rates sender)).count + 1,
            (rollRate cfg now (s.rates sender)).dailyAmount + amount⟩ : RateLimitState)
        else s.rates sender) = _
      rw [if_pos rfl]
    · show (if s.nextId = s.nextId then
          some (⟨sender, recipient, agent, asset, amount, now, expiry,
            .Created, none⟩ : Remittance)
        else s.remits s.nextId) = _
      rw [if_pos rfl]

theorem rate_limit_admission_witness :
    create cfgW sRL 0 2 3 5 7 100 50 = Except.error ContractError.RateLimitExceeded
    ∧ create cfgW sW0 1 2 3 5 7 450 50 = Except.error ContractError.DailySendLimitExceeded
    ∧ exec cfgW sRL (Op.create 0 2 3 5 7 100 50) = sRL :=
  ⟨(rate_limit_admission cfgW sRL 0 2 3 5 7 100 50 rfl (by decide) (by decide)
      (by decide) (by decide) rfl).1 (by decide),
   (rate_limit_admission cfgW sW0 1 2 3 5 7 450 50 rfl (by decide) (by decide)
      (by decide) (by decide) rfl).2.1 (by decide) (by decide) (by decide),
   (rate_limit_admission cfgW sRL 0 2 3 5 7 100 50 rfl (by decide) (by decide)
      (by decide) (by decide) rfl).2.2.1 ContractError.RateLimitExceeded rfl⟩

/-- Claim C7: daily-amount accumulation uses checked integer arithmetic:
when the accumulation would overflow the integer width the operation
returns Overflow and leaves all state unchanged. -/
theorem overflow_checked (cfg : Config) (s : ContractState)
    (now sender recipient agent asset amount expiry : Nat)
    (hInit : s.initialized = true)
    (hAddr : validAddr sender = true ∧ validAddr recipient = true ∧ validAddr agent = true)
    (hAmt : ¬(amount = 0 ∨ cfg.maxAmount < amount))
    (hTok : asset ∈ s.tokens) (hAg : agent ∈ s.agents) (hP : s.paused = false)
    (hcnt : (rollRate cfg now (s.rates sender)).count + 1 ≤ cfg.perWindowCap)
    (hov : U64 ≤ (rollRate cfg now (s.rates sender)).dailyAmount + amount) :
    create cfg s now sender recipient agent asset amount expiry = .error .Overflow
    ∧ exec cfg s (Op.create now sender recipient agent asset amount expiry) = s := by
  have h : create cfg s now sender recipient agent asset amount expiry
      = .error .Overflow := by
    rw [create, if_neg (by simp [hInit]), if_neg (not_not_intro hAddr), if_neg hAmt,
      if_neg (not_not_intro hTok), if_neg (not_not_intro hAg), if_neg (by simp [hP]),
      if_neg (by omega), if_pos hov]
  refine ⟨h, ?_⟩
  rw [exec]
  simp only [step]
  rw [h]

theorem overflow_checked_witness :
    create cfgW sOV 0 2 3 5 7 100 50 = Except.error ContractError.Overflow
    ∧ exec cfgW sOV (Op.create 0 2 3 5 7 100 50) = sOV :=
  overflow_checked cfgW sOV 0 2 3 5 7 100 50 rfl (by decide) (by decide) (by decide)
    (by decide) rfl (by decide) (by decide)

/-- A terminal status is neither Created nor Pending. -/
theorem terminal_not_active {st : Status} (h : st.isTerminal = true) :
    ¬(st = Status.Created ∨ st = Status.Pending) := by
  cases st <;> first | exact absurd h (by decide) | decide

/-- Claim C2: for every remittance record and every operation, the status
only moves along the fixed edges of the lifecycle (`stepEdge`); Settled,
Expired and Cancelled are terminal, and a settle, expire or cancel aimed
at a terminal record fails InvalidStatus. -/
theorem status_transitions (cfg : Config) (s : ContractState) (h : Reachable cfg s) :
    (∀ (op : Op) (s' : ContractState) (id : Nat) (r r' : Remittance),
        step cfg s op = .ok s' → s.remits id = some r → s'.remits id = some r' →
        r' = r ∨ stepEdge r.status r'.status = true)
    ∧ (∀ now caller id ref r, s.initialized = true → s.remits id = some r →
        caller = r.agent → r.status.isTerminal = true →
        settle s now caller id ref = .error .InvalidStatus)
    ∧ (∀ now id r, s.initialized = true → s.remits id = some r →
        r.status.isTerminal = true →
        expire s now id = .error .InvalidStatus)
    ∧ (∀ caller id r, s.initialized = true → s.remits id = some r →
        (caller ∈ s.admins ∨ caller = r.sender) → r.status.isTerminal = true →
        cancel s caller id = .error .InvalidStatus) := by
  refine ⟨?_, ?_, ?_, ?_⟩
  · intro op s' id r r' hstep hr hr'
    exact status_edge_step (reachable_inv h) hstep hr hr'
  · intro now caller id ref r hi hr hag hterm
    rw [settle_some hi hr, if_neg (not_not_intro hag),
      if_pos (terminal_not_active hterm)]
  · intro now id r hi hr hterm
    rw [expire_some hi hr, if_pos (terminal_not_active hterm)]
  · intro caller id r hi hr hauth hterm
    rw [cancel_some hi hr, if_neg (not_not_intro hauth),
      if_pos (terminal_not_active hterm)]

theorem status_transitions_witness :
    (rW1 = rW0 ∨ stepEdge rW0.status rW1.status = true)
    ∧ settle sW1 9 5 0 99 = Except.error ContractError.InvalidStatus :=
  ⟨(status_transitions cfgW sW0 sW0_reachable).1 (Op.settle 1 5 0 42) sW1 0 rW0 rW1
      rfl rfl rfl,
   (status_transitions cfgW sW1 sW1_reachable).2.1 9 5 0 99 rW1 rfl rfl rfl rfl⟩

/-- Claim C3: from any reachable state, the admin set is non-empty once
initialized; remove_admin fails CannotRemoveLastAdmin whenever removal
would make the admin set empty, and every successful operation leaves the
admin set non-empty. -/
theorem admin_set_never_empty (cfg : Config) (s : ContractState) (h : Reachable cfg s) :
    (s.initialized = true → s.admins ≠ [])
    ∧ (∀ caller t, s.initialized = true → caller ∈ s.admins → t ∈ s.admins →
        s.admins.length = 1 → removeAdmin s caller t = .error .CannotRemoveLastAdmin)
    ∧ (∀ (op : Op) (s' : ContractState), step cfg s op = .ok s' →
        s'.initialized = true → s'.admins ≠ []) := by
  have hInv := reachable_inv h
  refine ⟨hInv.2.2.2.2, ?_, ?_⟩
  · intro caller t hi hc ht hlen
    rw [removeAdmin, if_neg (by simp [hi]), if_neg (not_not_intro hc),
      if_neg (not_not_intro ht), if_pos hlen]
  · intro op s' hstep hi'
    exact (inv_step hInv hstep).2.2.2.2 hi'

theorem admin_set_never_empty_witness :
    sW0.admins ≠ []
    ∧ removeAdmin sW0 1 1 = Except.error ContractError.CannotRemoveLastAdmin
    ∧ sW1.admins ≠ [] :=
  ⟨(admin_set_never_empty cfgW sW0 sW0_reachable).1 rfl,
   (admin_set_never_empty cfgW sW0 sW0_reachable).2.1 1 1 rfl (by decide) (by decide) rfl,
   (admin_set_never_empty cfgW sW0 sW0_reachable).2.2 (Op.settle 1 5 0 42) sW1 rfl rfl⟩

/-- Claim C1: the settle operation never succeeds twice for a remittance:
once a settle of an ID succeeds, every later settle on that ID fails, a
later settle reusing the settlement reference never succeeds and fails
DuplicateSettlement once its earlier preconditions hold, and no reachable
state records the same settlement reference on two remittances. -/
theorem settle_exactly_once (cfg : Config) (s s1 s2 : ContractState)
    (now caller id ref : Nat)
    (hreach : Reachable cfg s)
    (hok : settle s now caller id ref = .ok s1)
    (h12 : ReachFrom cfg s1 s2) :
    ref ∉ s.usedRefs
    ∧ (∀ now2 c2 ref2 t, settle s2 now2 c2 id ref2 ≠ .ok t)
    ∧ (∀ now2 c2 id2 ref2 t, settle s2 now2 c2 id2 ref2 = .ok t → ref2 ≠ ref)
    ∧ (∀ now2 c2 id2 r2, s2.remits id2 = some r2 → c2 = r2.agent →
        (r2.status = .Created ∨ r2.status = .Pending) → now2 < r2.expiry →
        settle s2 now2 c2 id2 ref = .error .DuplicateSettlement)
    ∧ (∀ ida idb ra rb v, s2.remits ida = some ra → s2.remits idb = some rb →
        ra.settlementRef = some v → rb.settlementRef = some v → ida = idb) := by
  have hInv : Inv s := reachable_inv hreach
  obtain ⟨hi, r, hr, hag, hst, hexp, hnone, hused, hs1⟩ := settle_ok_spec hok
  have hstep : step cfg s (Op.settle now caller id ref) = .ok s1 := hok
  have hInv1 : Inv s1 := inv_step hInv hstep
  have hset : s1.remits id
      = some { r with status := .Settled, settlementRef := some ref } := by
    rw [hs1]
    exact if_pos rfl
  have hs2r : s2.remits id
      = some { r with status := .Settled, settlementRef := some ref } :=
    settled_persist_reach hInv1 h12 hset rfl
  have hrefs2 : ref ∈ s2.usedRefs := by
    refine usedRefs_mono_reach h12 ?_
    rw [hs1]
    exact List.mem_cons_self _ _
  have hInv2 : Inv s2 := inv_reachFrom hInv1 h12
  have hi2 : s2.initialized = true := by
    refine initialized_mono_reach h12 ?_
    rw [hs1]
    exact hi
  refine ⟨hused, ?_, ?_, ?_, hInv2.2.2.2.1⟩
  · intro now2 c2 ref2 t hok2
    obtain ⟨_, r2, hr2, _, hst2, _, _, _, _⟩ := settle_ok_spec hok2
    rw [hs2r] at hr2
    obtain rfl := Option.some.inj hr2
    rcases hst2 with hcp | hcp <;> exact Status.noConfusion hcp
  · intro now2 c2 id2 ref2 t hok2 heq
    subst heq
    obtain ⟨_, r2, hr2, _, _, _, _, hused2, _⟩ := settle_ok_spec hok2
    exact hused2 hrefs2
  · intro now2 c2 id2 r2 hr2 hag2 hst2 hexp2
    rw [settle_some hi2 hr2, if_neg (not_not_intro hag2),
      if_neg (not_not_intro hst2), if_neg (by omega), if_pos (Or.inr hrefs2)]

theorem settle_exactly_once_witness :
    (42 ∉ sW0.usedRefs)
    ∧ (∀ now2 c2 ref2 t, settle sW1 now2 c2 0 ref2 ≠ .ok t)
    ∧ (∀ now2 c2 id2 ref2 t, settle sW1 now2 c2 id2 ref2 = .ok t → ref2 ≠ 42)
    ∧ (∀ now2 c2 id2 r2, sW1.remits id2 = some r2 → c2 = r2.agent →
        (r2.status = .Created ∨ r2.status = .Pending) → now2 < r2.expiry →
        settle sW1 now2 c2 id2 42 = .error .DuplicateSettlement)
    ∧ (∀ ida idb ra rb v, sW1.remits ida = some ra → sW1.remits idb = some rb →
        ra.settlementRef = some v → rb.settlementRef = some v → ida = idb) :=
  settle_exactly_once cfgW sW0 sW1 sW1 1 5 0 42 sW0_reachable rfl ReachFrom.refl

end SwiftRemit
